import Mathlib

/-! Verification of the streaming client library: the lazy token sequences
(`sync_stream` / `async_stream`), the aggregator
(`collect_sync_response` / `collect_async_response`), the transform and safe
wrappers, and the unified `LLMStreamingClient` facade.

Modelling notes.  A Python generator that yields string tokens and then either
finishes cleanly or raises is embedded as a `PyStream`: the list of tokens it
yields, in order, together with an optional exception message.  Pure
generators that cannot fail are embedded directly as Lean lists.  The
cooperative-scheduling delays (`asyncio.sleep`) in the asynchronous variants
pace emission but never touch token values, so the async variants are embedded
by the same token computations, written as separate definitions mirroring the
separate Python functions. -/

/-- The whitespace test of Python `str.split()` with no arguments
(CPython's Py_UNICODE_ISSPACE): space, tab, newline, vertical tab, form
feed, carriage return, the separator controls U+001C through U+001F, next
line U+0085, no-break space U+00A0, ogham space mark U+1680, the spaces
U+2000 through U+200A, line separator U+2028, paragraph separator U+2029,
narrow no-break space U+202F, medium mathematical space U+205F, and
ideographic space U+3000. -/
def isPySpace (c : Char) : Bool :=
  c = ' ' || c = '\t' || c = '\n' || c = '\x0b' || c = '\x0c' || c = '\r'
    || c = '\x1c' || c = '\x1d' || c = '\x1e' || c = '\x1f'
    || c = '\x85' || c = '\xa0'
    || c = '\u1680'
    || c = '\u2000' || c = '\u2001' || c = '\u2002' || c = '\u2003'
    || c = '\u2004' || c = '\u2005' || c = '\u2006' || c = '\u2007'
    || c = '\u2008' || c = '\u2009' || c = '\u200a'
    || c = '\u2028' || c = '\u2029' || c = '\u202f' || c = '\u205f'
    || c = '\u3000'

/-- Worker for whitespace-run splitting: `acc` holds the current word in
reverse; a word is emitted only when non-empty, so empty pieces are never
produced. -/
def splitWsAux (acc : List Char) : List Char → List (List Char)
  | [] => if acc = [] then [] else [acc.reverse]
  | c :: cs =>
    if isPySpace c then
      if acc = [] then splitWsAux [] cs else acc.reverse :: splitWsAux [] cs
    else
      splitWsAux (c :: acc) cs

/-- `prompt.split()`: split on runs of whitespace, producing no empty
tokens. -/
def pySplit (s : String) : List String :=
  (splitWsAux [] s.data).map String.mk

/-- `sync_stream(prompt)`: the tokens the synchronous generator yields,
`prompt.split() if prompt else ["No", "prompt", "provided"]` (a string is
truthy exactly when non-empty). -/
def sync_stream (prompt : String) : List String :=
  if prompt = "" then ["No", "prompt", "provided"] else pySplit prompt

/-- `async_stream(prompt)`: the tokens the asynchronous generator yields; the
`asyncio.sleep` between yields affects pacing only, never the token values or
their order. -/
def async_stream (prompt : String) : List String :=
  if prompt = "" then ["No", "prompt", "provided"] else pySplit prompt

/-- `" ".join(tokens)`. -/
def joinSpace : List String → String
  | [] => ""
  | [t] => t
  | t :: ts => t ++ " " ++ joinSpace ts

/-- `collect_sync_response(prompt)`: drain `sync_stream(prompt)` into a list
and join with single spaces. -/
def collect_sync_response (prompt : String) : String :=
  joinSpace (sync_stream prompt)

/-- `collect_async_response(prompt)`: drain `async_stream(prompt)` with an
`async for` loop into a list and join with single spaces. -/
def collect_async_response (prompt : String) : String :=
  joinSpace (async_stream prompt)

/-- `transform_sync_stream(generator, transform_func)`: yield
`transform_func(token)` for each token pulled from the underlying
generator. -/
def transform_sync_stream {α β : Type} (f : α → β) : List α → List β
  | [] => []
  | t :: ts => f t :: transform_sync_stream f ts

/-- `transform_async_stream(async_generator, transform_func)`: the
asynchronous twin of `transform_sync_stream`. -/
def transform_async_stream {α β : Type} (f : α → β) : List α → List β
  | [] => []
  | t :: ts => f t :: transform_async_stream f ts

/-- A run of a (possibly failing) generator: the tokens it yields in order,
then `some e` if it raises an exception with message `e` after them, or
`none` if it terminates cleanly. -/
structure PyStream (α : Type) where
  tokens : List α
  err : Option String
deriving DecidableEq

/-- `safe_sync_stream(generator, on_error)`: forward every token; when the
underlying generator raises, yield `on_error(e)` as one extra token and
terminate cleanly if a policy is supplied, otherwise re-raise. -/
def safe_sync_stream {α : Type} (g : PyStream α) (on_error : Option (String → α)) :
    PyStream α :=
  match g.err, on_error with
  | none, _ => g
  | some e, some handler => ⟨g.tokens ++ [handler e], none⟩
  | some e, none => ⟨g.tokens, some e⟩

/-- `safe_async_stream(async_gen, on_error)`: the asynchronous twin of
`safe_sync_stream`, with the same try/except structure. -/
def safe_async_stream {α : Type} (g : PyStream α) (on_error : Option (String → α)) :
    PyStream α :=
  match g.err, on_error with
  | none, _ => g
  | some e, some handler => ⟨g.tokens ++ [handler e], none⟩
  | some e, none => ⟨g.tokens, some e⟩

/-- The aggregation step of the collectors applied to an arbitrary underlying
sequence: draining (`list(...)` or the `async for` loop) re-raises any
exception of the sequence before the join runs; otherwise all tokens are
joined with single spaces. -/
def collectStream (s : PyStream String) : Except String String :=
  match s.err with
  | some e => Except.error e
  | none => Except.ok (joinSpace s.tokens)

/-- `LLMStreamingClient.stream_sync(self, prompt)`: returns
`sync_stream(prompt)`.  The method signature has no callback parameter. -/
def LLMStreamingClient.stream_sync (prompt : String) : List String :=
  sync_stream prompt

/-- `LLMStreamingClient.astream(self, prompt)`: re-yields `async_stream(prompt)`
token by token.  The method signature has no callback parameter. -/
def LLMStreamingClient.astream (prompt : String) : List String :=
  async_stream prompt

/-- `LLMStreamingClient.complete_sync(self, prompt)`. -/
def LLMStreamingClient.complete_sync (prompt : String) : String :=
  collect_sync_response prompt

/-- `LLMStreamingClient.acomplete(self, prompt)`. -/
def LLMStreamingClient.acomplete (prompt : String) : String :=
  collect_async_response prompt

/-- A call of `client.stream_sync` with an optional `callback` keyword
argument, under Python call semantics: the method is defined with parameters
`(self, prompt)` only, so passing `callback=` raises `TypeError` before any
token is produced; without it the raw token stream is returned. -/
def stream_sync_call (prompt : String) (callback : Option (String → Unit)) :
    Except String (List String) :=
  match callback with
  | none => Except.ok (sync_stream prompt)
  | some _ =>
    Except.error "TypeError: stream_sync() got an unexpected keyword argument callback"

/-- A call of `client.astream` with an optional `callback` keyword argument,
under Python call semantics: the method is defined with parameters
`(self, prompt)` only, so passing `callback=` raises `TypeError` before any
token is produced; without it the raw token stream is returned. -/
def astream_call (prompt : String) (callback : Option (String → Unit)) :
    Except String (List String) :=
  match callback with
  | none => Except.ok (async_stream prompt)
  | some _ =>
    Except.error "TypeError: astream() got an unexpected keyword argument callback"

/-! Helper lemmas about strings and the splitter. -/

/-- A string with empty character data is the empty string. -/
theorem string_eq_empty_of_data : ∀ {s : String}, s.data = [] → s = ""
  | ⟨[]⟩, _ => rfl

/-- A string whose character data is non-empty is not the empty string. -/
theorem string_ne_empty_of_data {s : String} (h : s.data ≠ []) : s ≠ "" :=
  fun he => h (by rw [he])

/-- Joining a list whose head has non-empty data never gives the empty
string. -/
theorem joinSpace_ne_empty (t : String) (ts : List String) (h : t.data ≠ []) :
    joinSpace (t :: ts) ≠ "" := by
  cases ts with
  | nil => exact string_ne_empty_of_data h
  | cons t2 r =>
    apply string_ne_empty_of_data
    show (t ++ " " ++ joinSpace (t2 :: r)).data ≠ []
    simp [String.data_append]

/-- If every token is non-empty then the space-join is empty exactly when the
token list is empty. -/
theorem joinSpace_empty_iff (ts : List String) (h : ∀ t ∈ ts, t ≠ "") :
    joinSpace ts = "" ↔ ts = [] := by
  constructor
  · intro hj
    cases ts with
    | nil => rfl
    | cons t r =>
      have ht : t.data ≠ [] := by
        intro hd
        exact h t (by simp) (string_eq_empty_of_data hd)
      exact absurd hj (joinSpace_ne_empty t r ht)
  · intro he
    rw [he]
    rfl

/-- Splitting input consisting solely of whitespace produces no words. -/
theorem splitWsAux_all_space :
    ∀ l : List Char, (∀ c ∈ l, isPySpace c = true) → splitWsAux [] l = [] := by
  intro l
  induction l with
  | nil => intro _; rfl
  | cons c cs ih =>
    intro h
    have hc : isPySpace c = true := h c (by simp)
    simp [splitWsAux, hc]
    exact ih (fun d hd => h d (by simp [hd]))

/-- Every word the splitter emits is non-empty and whitespace-free, provided
the running accumulator is whitespace-free. -/
theorem splitWsAux_sound :
    ∀ (l acc : List Char), (∀ c ∈ acc, isPySpace c = false) →
      ∀ w ∈ splitWsAux acc l, w ≠ [] ∧ ∀ c ∈ w, isPySpace c = false := by
  intro l
  induction l with
  | nil =>
    intro acc hacc w hw
    by_cases he : acc = []
    · simp [splitWsAux, he] at hw
    · simp [splitWsAux, he] at hw
      subst hw
      refine ⟨by simpa using he, ?_⟩
      intro c hc
      exact hacc c (List.mem_reverse.mp hc)
  | cons c cs ih =>
    intro acc hacc w hw
    by_cases hc : isPySpace c = true
    · by_cases he : acc = []
      · simp [splitWsAux, hc, he] at hw
        exact ih [] (by simp) w hw
      · simp [splitWsAux, hc, he] at hw
        rcases hw with hw | hw
        · subst hw
          refine ⟨by simpa using he, ?_⟩
          intro d hd
          exact hacc d (List.mem_reverse.mp hd)
        · exact ih [] (by simp) w hw
    · have hc' : isPySpace c = false := by simpa using hc
      simp [splitWsAux, hc'] at hw
      refine ih (c :: acc) ?_ w hw
      intro d hd
      rcases List.mem_cons.mp hd with hd | hd
      · rw [hd]; exact hc'
      · exact hacc d hd

/-- Consuming a whitespace-free word prepends its reverse to the
accumulator. -/
theorem splitWsAux_word :
    ∀ (w l acc : List Char), (∀ c ∈ w, isPySpace c = false) →
      splitWsAux acc (w ++ l) = splitWsAux (w.reverse ++ acc) l := by
  intro w
  induction w with
  | nil => intro l acc _; rfl
  | cons c cs ih =>
    intro l acc h
    have hc : isPySpace c = false := h c (by simp)
    show splitWsAux acc (c :: (cs ++ l)) = _
    simp only [splitWsAux, hc, Bool.false_eq_true, if_false]
    rw [ih l (c :: acc) (fun d hd => h d (by simp [hd]))]
    simp

/-- Splitting the single-space join of non-empty whitespace-free tokens
recovers exactly those tokens. -/
theorem pySplit_joinSpace :
    ∀ ts : List String,
      (∀ t ∈ ts, t.data ≠ [] ∧ ∀ c ∈ t.data, isPySpace c = false) →
      ts ≠ [] → pySplit (joinSpace ts) = ts := by
  intro ts
  induction ts with
  | nil => intro _ h; exact absurd rfl h
  | cons t rest ih =>
    intro hall _
    obtain ⟨ht1, ht2⟩ := hall t (by simp)
    cases rest with
    | nil =>
      show pySplit t = [t]
      unfold pySplit
      have h1 : splitWsAux [] (t.data ++ []) = splitWsAux (t.data.reverse ++ []) [] :=
        splitWsAux_word t.data [] [] ht2
      rw [List.append_nil, List.append_nil] at h1
      rw [h1]
      have hne : t.data.reverse ≠ [] := by simpa using ht1
      have h2 : splitWsAux t.data.reverse [] = [t.data.reverse.reverse] := by
        simp [splitWsAux, hne]
      rw [h2, List.reverse_reverse]
      rfl
    | cons t2 r =>
      have hrest : pySplit (joinSpace (t2 :: r)) = t2 :: r :=
        ih (fun u hu => hall u (by simp [hu])) (by simp)
      show pySplit (t ++ " " ++ joinSpace (t2 :: r)) = t :: t2 :: r
      unfold pySplit
      have hsp : (" " : String).data = [' '] := rfl
      have hdata : (t ++ " " ++ joinSpace (t2 :: r)).data
          = t.data ++ (' ' :: (joinSpace (t2 :: r)).data) := by
        simp [String.data_append, hsp]
      rw [hdata]
      rw [splitWsAux_word t.data (' ' :: (joinSpace (t2 :: r)).data) [] ht2]
      rw [List.append_nil]
      have hne : t.data.reverse ≠ [] := by simpa using ht1
      have hspace : isPySpace ' ' = true := rfl
      have hstep : splitWsAux t.data.reverse (' ' :: (joinSpace (t2 :: r)).data)
          = t.data.reverse.reverse :: splitWsAux [] (joinSpace (t2 :: r)).data := by
        simp [splitWsAux, hne, hspace]
      rw [hstep, List.reverse_reverse]
      show String.mk t.data :: (splitWsAux [] (joinSpace (t2 :: r)).data).map String.mk
          = t :: t2 :: r
      have hmap : (splitWsAux [] (joinSpace (t2 :: r)).data).map String.mk = t2 :: r :=
        hrest
      rw [hmap]

/-! Claim theorems. -/

/-- C1: the client does not provide the specified callback parameter.
`stream_sync` and `astream` are defined with only a prompt parameter, so a
call passing the optional callback the specification (and the test suite)
requires raises `TypeError` instead of invoking the callback once per token;
without a callback the raw token streams are returned. -/
theorem stream_callback_rejected :
    stream_sync_call "Hello callback" (some (fun _ => ())) =
      Except.error
        "TypeError: stream_sync() got an unexpected keyword argument callback" ∧
    astream_call "Async callback test" (some (fun _ => ())) =
      Except.error
        "TypeError: astream() got an unexpected keyword argument callback" ∧
    stream_sync_call "Hello callback" none = Except.ok ["Hello", "callback"] ∧
    astream_call "Async callback test" none =
      Except.ok ["Async", "callback", "test"] := by
  refine ⟨rfl, rfl, ?_, ?_⟩
  · exact congrArg Except.ok (by decide)
  · exact congrArg Except.ok (by decide)

/-- C2: wrapping a sequence that yields `ts` and then fails with `e` in the
safe wrapper together with a recovery policy yields exactly `ts` followed by
the single substitute token `handler e`, then terminates cleanly, in both the
blocking and the suspending variant; in particular the sequence yielding
`["A", "B"]` then failing with "X" under the bracketed-error policy yields
exactly `["A", "B", "[ERROR: X]"]`. -/
theorem safe_stream_with_recovery (ts : List String) (e : String)
    (handler : String → String) :
    safe_sync_stream ⟨ts, some e⟩ (some handler) = ⟨ts ++ [handler e], none⟩ ∧
    safe_async_stream ⟨ts, some e⟩ (some handler) = ⟨ts ++ [handler e], none⟩ ∧
    safe_sync_stream ⟨["A", "B"], some "X"⟩
        (some (fun m => "[ERROR: " ++ m ++ "]"))
      = ⟨["A", "B", "[ERROR: X]"], none⟩ ∧
    safe_async_stream ⟨["A", "B"], some "X"⟩
        (some (fun m => "[ERROR: " ++ m ++ "]"))
      = ⟨["A", "B", "[ERROR: X]"], none⟩ := by
  refine ⟨rfl, rfl, ?_, ?_⟩ <;> decide

/-- C3: wrapping a sequence that yields `ts` and then fails with `e` in the
safe wrapper with no recovery policy yields exactly `ts` and then re-raises
the original failure `e`, emitting no substitute token, in both the blocking
and the suspending variant. -/
theorem safe_stream_without_recovery (ts : List String) (e : String) :
    safe_sync_stream ⟨ts, some e⟩ none = ⟨ts, some e⟩ ∧
    safe_async_stream ⟨ts, some e⟩ none = ⟨ts, some e⟩ :=
  ⟨rfl, rfl⟩

/-- C4: for every non-empty prompt given as the single-space join of
non-empty, whitespace-free tokens, blocking-complete returns the prompt
unchanged: split-then-join is the identity on single-space-normalized
input. -/
theorem complete_sync_roundtrip (ts : List String) (h1 : ts ≠ [])
    (h2 : ∀ t ∈ ts, t.data ≠ [] ∧ ∀ c ∈ t.data, isPySpace c = false) :
    LLMStreamingClient.complete_sync (joinSpace ts) = joinSpace ts := by
  obtain ⟨t, rest, rfl⟩ : ∃ t rest, ts = t :: rest := by
    cases ts with
    | nil => exact absurd rfl h1
    | cons a b => exact ⟨a, b, rfl⟩
  have hne : joinSpace (t :: rest) ≠ "" :=
    joinSpace_ne_empty t rest (h2 t (by simp)).1
  show collect_sync_response (joinSpace (t :: rest)) = joinSpace (t :: rest)
  unfold collect_sync_response sync_stream
  rw [if_neg hne, pySplit_joinSpace (t :: rest) h2 h1]

/-- C4 witness: the round-trip theorem applied to the prompt
"Hello world". -/
theorem complete_sync_roundtrip_witness :
    LLMStreamingClient.complete_sync "Hello world" = "Hello world" :=
  complete_sync_roundtrip ["Hello", "world"] (by decide) (by decide)

/-- C5: for every prompt, suspending-complete returns exactly the same string
as blocking-complete: execution mode never affects the joined result. -/
theorem acomplete_eq_complete_sync (p : String) :
    LLMStreamingClient.acomplete p = LLMStreamingClient.complete_sync p ∧
    collect_async_response p = collect_sync_response p :=
  ⟨rfl, rfl⟩

/-- C6: on the empty prompt both baseline sequences emit exactly
`["No", "prompt", "provided"]`; on every other prompt they emit the prompt
split on whitespace runs, and no emitted token is empty. -/
theorem stream_tokenization :
    (sync_stream "" = ["No", "prompt", "provided"] ∧
      async_stream "" = ["No", "prompt", "provided"]) ∧
    ∀ p : String, p ≠ "" →
      sync_stream p = pySplit p ∧ async_stream p = pySplit p ∧
      ∀ t ∈ sync_stream p, t ≠ "" := by
  refine ⟨⟨rfl, rfl⟩, ?_⟩
  intro p hp
  refine ⟨if_neg hp, if_neg hp, ?_⟩
  intro t ht
  unfold sync_stream at ht
  rw [if_neg hp] at ht
  unfold pySplit at ht
  obtain ⟨w, hw, rfl⟩ := List.mem_map.mp ht
  have hsound := splitWsAux_sound p.data [] (by simp) w hw
  exact string_ne_empty_of_data hsound.1

/-- C6 witness: the tokenization theorem applied to the prompt "a  b",
whose double space produces a single separator run. -/
theorem stream_tokenization_witness :
    sync_stream "a  b" = ["a", "b"] ∧ async_stream "a  b" = ["a", "b"] := by
  have h := stream_tokenization.2 "a  b" (by decide)
  exact ⟨h.1.trans (by decide), h.2.1.trans (by decide)⟩

/-- C7: the transform wrappers map the underlying tokens elementwise:
element i of the output is `f` of element i of the input, the length and
order are preserved, and producing the first k output tokens applies `f`
exactly to the first k input tokens (laziness: positions not pulled are
never transformed). -/
theorem transform_stream_spec {α β : Type} (f : α → β) (s : List α) :
    transform_sync_stream f s = s.map f ∧
    transform_async_stream f s = s.map f ∧
    (transform_sync_stream f s).length = s.length ∧
    (transform_async_stream f s).length = s.length ∧
    ∀ k, (transform_sync_stream f s).take k = (s.take k).map f := by
  have hsync : ∀ l : List α, transform_sync_stream f l = l.map f := by
    intro l
    induction l with
    | nil => rfl
    | cons t ts ih => simp [transform_sync_stream, ih]
  have hasync : ∀ l : List α, transform_async_stream f l = l.map f := by
    intro l
    induction l with
    | nil => rfl
    | cons t ts ih => simp [transform_async_stream, ih]
  refine ⟨hsync s, hasync s, ?_, ?_, ?_⟩
  · rw [hsync s]; simp
  · rw [hasync s]; simp
  · intro k; rw [hsync s, List.map_take]

/-- C8 counterexample: a sequence producing exactly one token, the empty
string, aggregates to the empty string although it produced a token, so for
arbitrary sequences the result being empty does not imply zero tokens. -/
theorem collect_empty_token_counterexample :
    collectStream ⟨[""], none⟩ = Except.ok "" ∧
    ([""] : List String) ≠ [] :=
  ⟨rfl, by decide⟩

/-- C8 amended: the aggregator joins all emitted tokens with single spaces in
emission order and propagates any failure of the underlying sequence
unchanged; the result is the empty string iff the sequence produced zero
tokens, provided every produced token is non-empty (as holds for every
baseline sequence). -/
theorem collectStream_spec (s : PyStream String) :
    (∀ e, s.err = some e → collectStream s = Except.error e) ∧
    (s.err = none → collectStream s = Except.ok (joinSpace s.tokens)) ∧
    ((∀ t ∈ s.tokens, t ≠ "") → (joinSpace s.tokens = "" ↔ s.tokens = [])) := by
  refine ⟨?_, ?_, ?_⟩
  · intro e he
    unfold collectStream
    rw [he]
  · intro he
    unfold collectStream
    rw [he]
  · intro h
    exact joinSpace_empty_iff s.tokens h

/-- C8 witness: the aggregator theorem applied to a failing run and to a
clean two-token run. -/
theorem collectStream_spec_witness :
    collectStream ⟨["A", "B"], some "X"⟩ = Except.error "X" ∧
    collectStream ⟨["A", "B"], none⟩ = Except.ok "A B" ∧
    (joinSpace ["A", "B"] = "" ↔ (["A", "B"] : List String) = []) :=
  ⟨(collectStream_spec ⟨["A", "B"], some "X"⟩).1 "X" rfl,
   (collectStream_spec ⟨["A", "B"], none⟩).2.1 rfl,
   (collectStream_spec ⟨["A", "B"], none⟩).2.2 (by decide)⟩

/-- C9: a non-empty prompt consisting only of whitespace is truthy, so the
fallback is not produced; splitting yields zero tokens and both complete
operations return the empty string. -/
theorem whitespace_prompt_empty (p : String) (h1 : p ≠ "")
    (h2 : ∀ c ∈ p.data, isPySpace c = true) :
    sync_stream p = [] ∧ async_stream p = [] ∧
    collect_sync_response p = "" ∧ collect_async_response p = "" ∧
    LLMStreamingClient.complete_sync p = "" ∧
    LLMStreamingClient.acomplete p = "" := by
  have hs : sync_stream p = [] := by
    unfold sync_stream
    rw [if_neg h1]
    unfold pySplit
    rw [splitWsAux_all_space p.data h2]
    rfl
  have ha : async_stream p = [] := by
    unfold async_stream
    rw [if_neg h1]
    unfold pySplit
    rw [splitWsAux_all_space p.data h2]
    rfl
  refine ⟨hs, ha, ?_, ?_, ?_, ?_⟩
  · show joinSpace (sync_stream p) = ""
    rw [hs]
    rfl
  · show joinSpace (async_stream p) = ""
    rw [ha]
    rfl
  · show joinSpace (sync_stream p) = ""
    rw [hs]
    rfl
  · show joinSpace (async_stream p) = ""
    rw [ha]
    rfl

/-- C9 witness: the whitespace-prompt theorem applied to the three-space
prompt. -/
theorem whitespace_prompt_empty_witness :
    sync_stream "   " = [] ∧ collect_sync_response "   " = "" := by
  have h := whitespace_prompt_empty "   " (by decide) (by decide)
  exact ⟨h.1, h.2.2.1⟩

/-- C10: every token emitted by the baseline blocking and suspending
sequences, for any prompt, is non-empty and contains no whitespace
character; this includes the fallback tokens. -/
theorem baseline_token_invariant (p t : String) :
    (t ∈ sync_stream p → t ≠ "" ∧ ∀ c ∈ t.data, isPySpace c = false) ∧
    (t ∈ async_stream p → t ≠ "" ∧ ∀ c ∈ t.data, isPySpace c = false) := by
  have key : t ∈ (if p = "" then ["No", "prompt", "provided"] else pySplit p) →
      t ≠ "" ∧ ∀ c ∈ t.data, isPySpace c = false := by
    by_cases hp : p = ""
    · rw [if_pos hp]
      intro ht
      simp only [List.mem_cons, List.not_mem_nil, or_false] at ht
      rcases ht with rfl | rfl | rfl
      · exact ⟨by decide, by decide⟩
      · exact ⟨by decide, by decide⟩
      · exact ⟨by decide, by decide⟩
    · rw [if_neg hp]
      intro ht
      unfold pySplit at ht
      obtain ⟨w, hw, rfl⟩ := List.mem_map.mp ht
      have hsound := splitWsAux_sound p.data [] (by simp) w hw
      exact ⟨string_ne_empty_of_data hsound.1, hsound.2⟩
  exact ⟨key, key⟩

/-- C10 witness: the invariant applied to the first token of the prompt
"hi there". -/
theorem baseline_token_invariant_witness :
    ("hi" : String) ≠ "" ∧ ∀ c ∈ ("hi" : String).data, isPySpace c = false :=
  (baseline_token_invariant "hi there" "hi").1 (by decide)
